import Mathlib

/-
Shallow embedding of the `market-participants` order-book classifier.

The Rust sources are embedded as executable Lean definitions:
  * machine floats (`f64`) are modelled by exact rationals `ℚ`; `parse::<f64>()`
    on plain decimal strings is modelled by `parseDecimal`;
  * `std::time::Instant` is modelled by a rational timestamp passed explicitly
    (`Instant::now()` becomes a `now` argument; `t.elapsed()` becomes `now - t`);
  * `HashMap` is modelled by an association list with replace-on-insert
    (`setA` / `updateA` / `lookupA`);
  * `serde_json::Value` is modelled by the inductive `Json`;
  * the sqlite database is modelled by the list of inserted records, with an
    explicit `dbFails` flag standing for an `insert_analysis` I/O error.
-/

namespace MP

/-- Numeric value of a list of decimal digit characters, most significant first. -/
def digitsVal (cs : List Char) : ℕ :=
  cs.foldl (fun n c => 10 * n + (c.toNat - 48)) 0

/-- Model of Rust `str::parse::<f64>()` restricted to plain decimal literals:
optional sign, an integer part and an optional fractional part, at least one
digit overall.  Strings outside this grammar (such as `"abc"`) parse to `none`. -/
def parseDecimal (s : String) : Option ℚ :=
  let cs := s.toList
  let signed : ℚ × List Char :=
    match cs with
    | '-' :: rest => (-1, rest)
    | '+' :: rest => (1, rest)
    | _ => (1, cs)
  let ip := signed.2.takeWhile Char.isDigit
  let rest := signed.2.dropWhile Char.isDigit
  match rest with
  | [] => if ip.isEmpty then none else some (signed.1 * (digitsVal ip : ℚ))
  | '.' :: fp =>
      if fp.all Char.isDigit ∧ ¬(ip.isEmpty ∧ fp.isEmpty) then
        some (signed.1 * ((digitsVal ip : ℚ) + (digitsVal fp : ℚ) / (10 : ℚ) ^ fp.length))
      else none
  | _ => none

/-- Floor of a rational as an integer (`q.den` is positive, so `fdiv` is exact floor). -/
def ratFloor (q : ℚ) : ℤ :=
  Int.fdiv q.num (q.den : ℤ)

/-- Model of Rust's `as i64` cast from `f64` (truncation toward zero; saturation ignored). -/
def toI64 (q : ℚ) : ℤ :=
  if 0 ≤ q then ratFloor q else -(ratFloor (-q))

/-- Model of `f64::trunc` (round toward zero). -/
def rustTrunc (q : ℚ) : ℚ :=
  (toI64 q : ℚ)

/-- Model of `f64::fract` (`x - x.trunc()`). -/
def rustFract (q : ℚ) : ℚ :=
  q - rustTrunc q

/-- Model of Rust's `%` on floats: `x - y * (x / y).trunc()`. -/
def rustRem (x y : ℚ) : ℚ :=
  x - y * rustTrunc (x / y)

/-- Model of `serde_json::Value`. -/
inductive Json where
  | null
  | bool (b : Bool)
  | num (q : ℚ)
  | str (s : String)
  | arr (xs : List Json)
  | obj (fields : List (String × Json))

/-- Model of `Value::get(key)`: field lookup on objects, `None` otherwise. -/
def Json.get (j : Json) (key : String) : Option Json :=
  match j with
  | .obj fields => (fields.find? (fun f => f.1 == key)).map (fun f => f.2)
  | _ => none

/-- Model of `Value::as_str`. -/
def Json.asStr : Json → Option String
  | .str s => some s
  | _ => none

/-- Model of `Value::as_array`. -/
def Json.asArr : Json → Option (List Json)
  | .arr xs => some xs
  | _ => none

/-- Model of `value[i]` on `serde_json::Value`: element of an array, `Null` on
a non-array or an out-of-range index. -/
def Json.idx (j : Json) (i : ℕ) : Json :=
  match j with
  | .arr xs => xs.getD i .null
  | _ => .null

/-- Association-list lookup, modelling `HashMap::get` (value of the first
entry whose key matches). -/
def lookupA {α : Type} : List (String × α) → String → Option α
  | [], _ => none
  | p :: rest, k => if p.1 == k then some p.2 else lookupA rest k

/-- Replace the value stored under an existing key, modelling writes through
`HashMap::get_mut` (keys absent from the map are left untouched). -/
def updateA {α : Type} (m : List (String × α)) (k : String) (v : α) : List (String × α) :=
  m.map (fun p => if p.1 == k then (k, v) else p)

/-- Insert-or-replace, modelling `HashMap::insert` / `entry(..).or_default()` writes. -/
def setA {α : Type} (m : List (String × α)) (k : String) (v : α) : List (String × α) :=
  if m.any (fun p => p.1 == k) then updateA m k v else m ++ [(k, v)]

/-- Model of `OrderBookEntry` (src/src/lib.rs:8). -/
structure OrderBookEntry where
  price : String
  quantity : String
  total : ℚ
  is_likely_human : Bool
  human_indicators : List String
deriving DecidableEq

/-- Model of `OrderSide` (src/src/lib.rs:27). -/
inductive OrderSide where
  | Bid
  | Ask
deriving DecidableEq

/-- Model of `OrderBookMessage` (src/src/lib.rs:17). -/
structure OrderBookMessage where
  timestamp : ℚ
  symbol : String
  is_human : Bool
  price : String
  quantity : String
  side : OrderSide
deriving DecidableEq

/-- Model of `OrderBook` (src/src/lib.rs:33). -/
structure OrderBook where
  bids : List OrderBookEntry
  asks : List OrderBookEntry
  last_update : ℚ
  persistent_orders : List (String × OrderBookEntry)
deriving DecidableEq

/-- Model of `db::MarketAnalysisRecord` (src/src/db.rs:4). -/
structure MarketAnalysisRecord where
  symbol : String
  timestamp : ℤ
  total_orders : ℤ
  human_orders : ℤ
  bot_orders : ℤ
  human_ratio : ℚ
deriving DecidableEq

/-- Model of `App` (src/src/lib.rs:40); the `db` field is the list of records
successfully inserted so far. -/
structure App where
  order_books : List (String × OrderBook)
  current_symbol : String
  message_history : List OrderBookMessage
  db : List MarketAnalysisRecord
  last_db_write : ℚ
  analysis_buffer : List (String × List (ℚ × ℕ × ℕ))
deriving DecidableEq

/-- Model of `MarketAnalysis` (src/src/lib.rs:49). -/
structure MarketAnalysis where
  total_orders : ℕ
  likely_human_orders : ℕ
  bot_patterns : List String
  human_patterns : List String
  confidence_scores : List (String × ℚ)
deriving DecidableEq

/-- Configured symbol set (src/src/lib.rs:6). -/
def SYMBOLS : List String :=
  ["btcusdt", "ethusdt", "bnbusdt", "xrpusdt"]

/-- Model of `App::new` (src/src/lib.rs:58): empty books keyed by the
uppercased symbols, empty history and buffers. -/
def initApp (now : ℚ) : App :=
  { order_books := SYMBOLS.map (fun s =>
      (s.toUpper,
       { bids := [], asks := [], last_update := now, persistent_orders := [] }))
    current_symbol := "BTCUSDT"
    message_history := []
    db := []
    last_db_write := now
    analysis_buffer := [] }

/-- Sort key used by `update_orders` when ordering a book side: the parsed
price, with an unparsable price defaulting to `0.0` (`unwrap_or(0.0)`,
src/src/lib.rs:308-323). -/
def keyOf (e : OrderBookEntry) : ℚ :=
  (parseDecimal e.price).getD 0

/-- Comparator for bids: descending by parsed price (src/src/lib.rs:308). -/
abbrev bidOrder (a b : OrderBookEntry) : Prop :=
  keyOf b ≤ keyOf a

/-- Comparator for asks: ascending by parsed price (src/src/lib.rs:317). -/
abbrev askOrder (a b : OrderBookEntry) : Prop :=
  keyOf a ≤ keyOf b

instance : IsTotal OrderBookEntry bidOrder :=
  ⟨fun a b => le_total (keyOf b) (keyOf a)⟩

instance : IsTrans OrderBookEntry bidOrder :=
  ⟨fun _ _ _ h1 h2 => le_trans h2 h1⟩

instance : IsTotal OrderBookEntry askOrder :=
  ⟨fun a b => le_total (keyOf a) (keyOf b)⟩

instance : IsTrans OrderBookEntry askOrder :=
  ⟨fun _ _ _ h1 h2 => le_trans h1 h2⟩

/-- Entry built by `update_orders` from one `[price, quantity]` pair whose two
components are JSON strings (src/src/lib.rs:275-283). -/
def mkEntry (price quantity : String) : OrderBookEntry :=
  { price := price
    quantity := quantity
    total := (parseDecimal price).getD 0 * (parseDecimal quantity).getD 0
    is_likely_human := false
    human_indicators := [] }

/-- Levels extracted from the `bids` / `asks` field of an update
(src/src/lib.rs:272-305): a missing or non-array field yields no levels, and a
pair is kept exactly when its first two components are JSON strings. -/
def extractLevels (o : Option (List Json)) : List OrderBookEntry :=
  match o with
  | some xs => xs.filterMap (fun item =>
      match (item.idx 0).asStr, (item.idx 1).asStr with
      | some p, some q => some (mkEntry p q)
      | _, _ => none)
  | none => []

/-- Model of `App::update_orders` (src/src/lib.rs:264-360).  `Vec::sort_by` is
modelled by `List.insertionSort` with the same comparator (a comparison sort;
the claims below concern only sortedness and the multiset of entries). -/
def update_orders (app : App) (j : Json) (now : ℚ) : App :=
  match (j.get "symbol").bind Json.asStr with
  | none => app
  | some symbol =>
    match lookupA app.order_books symbol with
    | none => app
    | some order_book =>
      let bids := List.insertionSort bidOrder (extractLevels ((j.get "bids").bind Json.asArr))
      let asks := List.insertionSort askOrder (extractLevels ((j.get "asks").bind Json.asArr))
      let book' : OrderBook :=
        { order_book with bids := bids, asks := asks, last_update := now }
      let app' : App := { app with order_books := updateA app.order_books symbol book' }
      let sideSel : OrderSide := if bids.isEmpty then OrderSide.Ask else OrderSide.Bid
      match (if bids.isEmpty then asks.head? else bids.head?) with
      | none => app'
      | some entry =>
        let message : OrderBookMessage :=
          { timestamp := now
            symbol := symbol
            is_human := entry.is_likely_human
            price := entry.price
            quantity := entry.quantity
            side := sideSel }
        let hist := app'.message_history ++ [message]
        { app' with message_history := if 10000 < hist.length then hist.drop 5000 else hist }

/-- Model of `App::analyze_round_numbers` (src/src/lib.rs:193-212): one verdict
per level with a parsable price, bids then asks, keyed by the price string. -/
def analyzeRoundNumbers (book : OrderBook) : List (String × Bool) :=
  (book.bids ++ book.asks).filterMap (fun order =>
    match parseDecimal order.price with
    | some price =>
        let decimal_part := rustFract price
        let whole_part := rustTrunc price
        let is_round := decide (decimal_part = 0) || decide (decimal_part = 1/2)
          || decide (decimal_part = 1/4)
        let is_psych := decide (rustRem whole_part 1000 = 0)
          || decide (rustRem whole_part 500 = 0) || decide (rustRem whole_part 100 = 0)
        some (order.price, is_round || is_psych)
    | none => none)

/-- Model of `App::analyze_order_sizes` (src/src/lib.rs:214-233): one verdict
per level with a parsable quantity, bids then asks, keyed by the quantity string. -/
def analyzeOrderSizes (book : OrderBook) : List (String × Bool) :=
  (book.bids ++ book.asks).filterMap (fun order =>
    match parseDecimal order.quantity with
    | some quantity =>
        let whole_part := rustTrunc quantity
        let decimal_part := rustFract quantity
        let is_human_like := decide (decimal_part = 0) || decide (decimal_part = 1/2)
          || decide (decimal_part = 1/4) || decide (whole_part ≤ 10)
          || decide (rustRem whole_part 5 = 0)
        some (order.quantity, is_human_like)
    | none => none)

/-- Spacing verdicts over consecutive pairs of one book side
(`orders.windows(2)`, src/src/lib.rs:239-251), attached to the first price of
each pair. -/
def pairVerdicts (orders : List OrderBookEntry) : List (String × Bool) :=
  (orders.zip orders.tail).filterMap (fun w =>
    match parseDecimal w.1.price, parseDecimal w.2.price with
    | some price1, some price2 =>
        let diff := |price2 - price1|
        let is_human_like := decide (1/100 < diff) && decide (rustFract diff ≠ 0)
          && decide (rustRem diff (1/10) ≠ 0)
        some (w.1.price, is_human_like)
    | _, _ => none)

/-- Model of `App::analyze_order_placement` (src/src/lib.rs:235-255): bid pairs
followed by ask pairs. -/
def analyzeOrderPlacement (book : OrderBook) : List (String × Bool) :=
  pairVerdicts book.bids ++ pairVerdicts book.asks

/-- The zipped triples combined by `analyze_market`
(src/src/lib.rs:126-131): `round_numbers.iter().zip(order_sizes).zip(order_placement)`
truncates to the shortest of the three lists, and each element carries the
price from the round-numbers list together with the three positional verdicts. -/
def combined (book : OrderBook) : List (String × List Bool) :=
  (((analyzeRoundNumbers book).zip (analyzeOrderSizes book)).zip
      (analyzeOrderPlacement book)).map
    (fun x => (x.1.1.1, [x.1.1.2, x.1.2.2, x.2.2]))

/-- Confidence of one indicator vector (src/src/lib.rs:132-133):
`count of true / length` (the vector built by the loop always has length 3). -/
def scoreOf (indicators : List Bool) : ℚ :=
  (indicators.countP id : ℚ) / (indicators.length : ℚ)

/-- The `confidence_scores` map built by the combine loop
(src/src/lib.rs:121-142), as an insertion-ordered association list. -/
def confidenceScores (book : OrderBook) : List (String × ℚ) :=
  (combined book).foldl (fun m x => setA m x.1 (scoreOf x.2)) []

/-- Count of levels labeled human (src/src/lib.rs:144-147):
scores strictly above `0.6 = 3/5`. -/
def likelyHumanOrders (book : OrderBook) : ℕ :=
  (confidenceScores book).countP (fun kv => decide ((3 : ℚ)/5 < kv.2))

/-- The `total_orders` of a classification cycle (src/src/lib.rs:149). -/
def totalOrdersOf (book : OrderBook) : ℕ :=
  book.bids.length + book.asks.length

/-- Model of `App::update_analysis_buffer` on one symbol's window
(src/src/lib.rs:84-93): push the new sample, then retain samples with
`timestamp.elapsed() < 5` seconds, i.e. `now - timestamp < 5`. -/
def update_analysis_buffer (buf : List (ℚ × ℕ × ℕ)) (now : ℚ)
    (total_orders human_orders : ℕ) : List (ℚ × ℕ × ℕ) :=
  (buf ++ [(now, total_orders, human_orders)]).filter (fun s => decide (now - s.1 < 5))

/-- Average of one window (src/src/lib.rs:97-108): `None` on an empty window,
otherwise the two sums divided by the sample count. -/
def calculate_average_buffer (buf : List (ℚ × ℕ × ℕ)) : Option (ℚ × ℚ) :=
  if buf.isEmpty then none
  else
    some ((((buf.map (fun s => s.2.1)).sum : ℕ) : ℚ) / (buf.length : ℚ),
          (((buf.map (fun s => s.2.2)).sum : ℕ) : ℚ) / (buf.length : ℚ))

/-- Model of `App::calculate_average_analysis` (src/src/lib.rs:95-112). -/
def calculate_average_analysis (app : App) (symbol : String) : Option (ℚ × ℚ) :=
  match lookupA app.analysis_buffer symbol with
  | some buf => calculate_average_buffer buf
  | none => none

/-- Record built for a flush (src/src/lib.rs:159-170): `as i64` casts modelled
by `toI64`, and `human_ratio` guarded by `avg_total > 0.0`. -/
def mkAnalysisRecord (symbol : String) (ts : ℤ) (avg_total avg_human : ℚ) :
    MarketAnalysisRecord :=
  { symbol := symbol
    timestamp := ts
    total_orders := toI64 avg_total
    human_orders := toI64 avg_human
    bot_orders := toI64 (avg_total - avg_human)
    human_ratio := if 0 < avg_total then avg_human / avg_total else 0 }

/-- Model of the flush block of `analyze_market` (src/src/lib.rs:154-177):
when at least 5 seconds have elapsed since `last_db_write` and the window
average is available, the record is built and inserted (`dbFails = true` means
`insert_analysis` returned an error, which is only logged), and
`last_db_write` is set to `now` in either case; otherwise both the timer and
the database are left as they were.  Returns the new `last_db_write` and the
new database contents. -/
def flushStep (symbol : String) (now : ℚ) (ts : ℤ) (last_db_write : ℚ)
    (avg : Option (ℚ × ℚ)) (db : List MarketAnalysisRecord) (dbFails : Bool) :
    ℚ × List MarketAnalysisRecord :=
  if 5 ≤ now - last_db_write then
    match avg with
    | some (avg_total, avg_human) =>
        let record := mkAnalysisRecord symbol ts avg_total avg_human
        (now, if dbFails then db else db ++ [record])
    | none => (last_db_write, db)
  else (last_db_write, db)

/-- Default `MarketAnalysis` (src/src/lib.rs:363-373). -/
def MarketAnalysis.default : MarketAnalysis :=
  { total_orders := 0
    likely_human_orders := 0
    bot_patterns := []
    human_patterns := []
    confidence_scores := [] }

/-- Model of `App::analyze_market` (src/src/lib.rs:114-191): classify the
current symbol's book, update its rolling window, and run the flush block. -/
def analyze_market (app : App) (now : ℚ) (ts : ℤ) (dbFails : Bool) :
    MarketAnalysis × App :=
  match lookupA app.order_books app.current_symbol with
  | none => (MarketAnalysis.default, app)
  | some order_book =>
    let scores := confidenceScores order_book
    let human_patterns := (combined order_book).filterMap (fun x =>
      if (3 : ℚ)/5 < scoreOf x.2 then
        some ("Order at " ++ x.1 ++ " shows human behavior") else none)
    let bot_patterns := (combined order_book).filterMap (fun x =>
      if (3 : ℚ)/5 < scoreOf x.2 then none
      else some ("Order at " ++ x.1 ++ " likely automated"))
    let likely_human_orders := likelyHumanOrders order_book
    let total_orders := totalOrdersOf order_book
    let buf := update_analysis_buffer
      ((lookupA app.analysis_buffer app.current_symbol).getD [])
      now total_orders likely_human_orders
    let app1 : App :=
      { app with analysis_buffer := setA app.analysis_buffer app.current_symbol buf }
    let avg := calculate_average_analysis app1 app.current_symbol
    let flushed := flushStep app.current_symbol now ts app.last_db_write avg app.db dbFails
    ({ total_orders := total_orders
       likely_human_orders := likely_human_orders
       bot_patterns := bot_patterns
       human_patterns := human_patterns
       confidence_scores := scores },
     { app1 with last_db_write := flushed.1, db := flushed.2 })

/-- Base reconnect delay in seconds (src/src/main.rs:21). -/
def RECONNECT_DELAY : ℚ := 5

/-- One turn of the `run_websocket` retry loop (src/src/main.rs:108-124):
given the current `reconnect_attempts` counter and whether the
connect-and-stream cycle completed without error, returns the updated counter
and the backoff delay `RECONNECT_DELAY.mul_f64(1.5f64.powi(attempts))` slept
before the next attempt. -/
def reconnectStep (attempts : ℕ) (cycleOk : Bool) : ℕ × ℚ :=
  let attempts' := if cycleOk then 0 else attempts + 1
  (attempts', RECONNECT_DELAY * ((3 : ℚ)/2) ^ attempts')

/-- Kinds of events produced by `read.next()` in the message loop of
`connect_and_stream` (src/src/main.rs:155-180). -/
inductive WsEvent where
  | text
  | malformed
  | close
  | other
  | failed
deriving DecidableEq

/-- Model of the message loop of `connect_and_stream`
(src/src/main.rs:155-180) over a trace of inbound events with their arrival
times (message handling is taken as instantaneous).  Each iteration first
overwrites `state.last_update` with `Instant::now()` (line 156), so the value
read by the staleness check at lines 177-179 is the arrival time of the very
message being processed; while the loop is blocked in `read.next().await`, no
check runs at all.  `failed` models `msg?` propagating a transport error and
`malformed` models `serde_json::from_str(&text)?` propagating a parse error. -/
def streamLoop : List (ℚ × WsEvent) → Except String Unit
  | [] => Except.ok ()
  | (now, ev) :: rest =>
    let last_update := now
    match ev with
    | WsEvent.failed => Except.error "websocket error"
    | WsEvent.malformed => Except.error "invalid message"
    | WsEvent.close => Except.ok ()
    | _ =>
      if 10 < now - last_update then Except.error "Connection stale"
      else streamLoop rest

/-- Order-book entry with the given price and quantity strings (the remaining
fields are as produced by `update_orders` before any analysis pass). -/
def entryOf (p q : String) : OrderBookEntry :=
  { price := p, quantity := q, total := 0, is_likely_human := false, human_indicators := [] }

/-- Concrete four-level book: two bids and two asks, every price and quantity
parsable. -/
def c1Book : OrderBook :=
  { bids := [entryOf "100.0" "1", entryOf "99.0" "1"]
    asks := [entryOf "101.0" "1", entryOf "102.0" "1"]
    last_update := 0
    persistent_orders := [] }

/-- Concrete update for the known symbol BTCUSDT whose single bid has the
unparsable price string "abc". -/
def c2Json : Json :=
  Json.obj [("symbol", Json.str "BTCUSDT"),
            ("bids", Json.arr [Json.arr [Json.str "abc", Json.str "1"]]),
            ("asks", Json.arr [])]

/-- Book stored for BTCUSDT after applying `c2Json` at time 7. -/
def c2Stored : OrderBook :=
  { bids := List.insertionSort bidOrder (extractLevels ((c2Json.get "bids").bind Json.asArr))
    asks := List.insertionSort askOrder (extractLevels ((c2Json.get "asks").bind Json.asArr))
    last_update := 7
    persistent_orders := [] }

/-- Window obtained by recording samples at times 0, 1, 2 and 6 seconds. -/
def c3Buf : List (ℚ × ℕ × ℕ) :=
  update_analysis_buffer
    (update_analysis_buffer
      (update_analysis_buffer (update_analysis_buffer [] 0 1 1) 1 1 1) 2 1 1)
    6 1 1

/-- Application state whose BTCUSDT window holds the single sample (0, 2, 1). -/
def c8App : App :=
  { initApp 0 with analysis_buffer := [("BTCUSDT", [(0, 2, 1)])] }

/-- Update naming a symbol outside the configured set. -/
def c9Json : Json :=
  Json.obj [("symbol", Json.str "DOGEUSDT")]

/-- Membership in `setA m k v` means being the inserted pair or coming from `m`. -/
theorem mem_setA {α : Type} {m : List (String × α)} {k : String} {v : α}
    {kv : String × α} (h : kv ∈ setA m k v) : kv = (k, v) ∨ kv ∈ m := by
  unfold setA updateA at h
  split at h
  · obtain ⟨p, hp, hpe⟩ := List.mem_map.mp h
    split at hpe
    · exact Or.inl hpe.symm
    · exact Or.inr (hpe ▸ hp)
  · rcases List.mem_append.mp h with h1 | h1
    · exact Or.inr h1
    · simp only [List.mem_singleton] at h1
      exact Or.inl h1

/-- Inserting into an association map grows it by at most one entry. -/
theorem length_setA {α : Type} (m : List (String × α)) (k : String) (v : α) :
    (setA m k v).length ≤ m.length + 1 := by
  unfold setA updateA
  split
  · simp only [List.length_map]
    exact Nat.le_succ _
  · simp

/-- Replacing the value under a present key makes lookup return the new value. -/
theorem lookupA_updateA_self {α : Type} {m : List (String × α)} {k : String}
    {b : α} (v : α) (h : lookupA m k = some b) :
    lookupA (updateA m k v) k = some v := by
  induction m with
  | nil => simp [lookupA] at h
  | cons p rest ih =>
    by_cases hk : p.1 == k
    · simp only [updateA, List.map_cons]
      rw [if_pos hk]
      simp only [lookupA]
      rw [if_pos (show ((k, v).1 == k) = true by simp)]
    · simp only [lookupA] at h
      rw [if_neg hk] at h
      have hres := ih h
      simp only [updateA, List.map_cons]
      rw [if_neg hk]
      simp only [lookupA]
      rw [if_neg hk]
      simpa only [updateA] using hres

/-- Every score produced by the combine loop is a fold step over `setA`. -/
theorem forall_fold_setA {P : ℚ → Prop} :
    ∀ (xs : List (String × List Bool)) (m : List (String × ℚ)),
      (∀ kv ∈ m, P kv.2) → (∀ x ∈ xs, P (scoreOf x.2)) →
      ∀ kv ∈ xs.foldl (fun acc x => setA acc x.1 (scoreOf x.2)) m, P kv.2 := by
  intro xs
  induction xs with
  | nil => exact fun m hm _ kv hkv => hm kv hkv
  | cons x xs ih =>
    intro m hm hxs kv hkv
    refine ih (setA m x.1 (scoreOf x.2)) ?_ ?_ kv hkv
    · intro kv' hkv'
      rcases mem_setA hkv' with h | h
      · rw [h]
        exact hxs x (List.mem_cons_self _ _)
      · exact hm kv' h
    · intro x' hx'
      exact hxs x' (List.mem_cons_of_mem _ hx')

/-- Length bound for the fold building `confidenceScores`. -/
theorem length_fold_setA (xs : List (String × List Bool)) :
    ∀ m : List (String × ℚ),
      (xs.foldl (fun acc x => setA acc x.1 (scoreOf x.2)) m).length ≤ m.length + xs.length := by
  induction xs with
  | nil => intro m; simp
  | cons x xs ih =>
    intro m
    calc (List.foldl (fun acc x => setA acc x.1 (scoreOf x.2)) (setA m x.1 (scoreOf x.2)) xs).length
        ≤ (setA m x.1 (scoreOf x.2)).length + xs.length := ih _
      _ ≤ (m.length + 1) + xs.length := by
          have := length_setA m x.1 (scoreOf x.2)
          omega
      _ = m.length + (x :: xs).length := by
          simp [List.length_cons]
          omega

/-- A three-indicator vector always scores 0, 1/3, 2/3 or 1. -/
theorem scoreOf_three (a b c : Bool) :
    scoreOf [a, b, c] = 0 ∨ scoreOf [a, b, c] = 1/3 ∨
    scoreOf [a, b, c] = 2/3 ∨ scoreOf [a, b, c] = 1 := by
  cases a <;> cases b <;> cases c <;> with_unfolding_all decide

/-- Characterization of one aggregator step: the retained samples are exactly
the old ones and the newly pushed one, restricted to age strictly below 5 s. -/
theorem mem_update_analysis_buffer {buf : List (ℚ × ℕ × ℕ)} {now : ℚ}
    {t h : ℕ} {s : ℚ × ℕ × ℕ} :
    s ∈ update_analysis_buffer buf now t h ↔
      (s ∈ buf ∨ s = (now, t, h)) ∧ now - s.1 < 5 := by
  unfold update_analysis_buffer
  rw [List.mem_filter, List.mem_append, List.mem_singleton, decide_eq_true_eq]

/-- C3 (counterexample): after recording samples at t = 0, 1, 2 and 6 seconds,
the code evicts the boundary sample recorded at t = 1 — whose age at t = 6 is
exactly 5 seconds — because `retain` keeps only `elapsed < 5` (strict), while
the claim asserts that every sample with timestamp in [1, 6] remains. -/
theorem c3_counterexample :
    ((1 : ℚ), 1, 1) ∉ c3Buf ∧ ((2 : ℚ), 1, 1) ∈ c3Buf := by
  with_unfolding_all decide

/-- C3 (amended): `update_analysis_buffer` appends the new sample and then
evicts exactly the samples aged 5 seconds or more (strictly younger than 5 s
are retained); in the t = 0, 1, 2, 6 scenario the samples at t = 0 and t = 1
are evicted and those at t = 2 and t = 6 remain. -/
theorem c3_amended_eviction :
    (∀ (buf : List (ℚ × ℕ × ℕ)) (now : ℚ) (t h : ℕ) (s : ℚ × ℕ × ℕ),
        s ∈ update_analysis_buffer buf now t h ↔
          (s ∈ buf ∨ s = (now, t, h)) ∧ now - s.1 < 5) ∧
    c3Buf = [(2, 1, 1), (6, 1, 1)] := by
  constructor
  · intro buf now t h s
    exact mem_update_analysis_buffer
  · with_unfolding_all decide

/-- C4 (code bug): the staleness check of `connect_and_stream` can never fire.
`state.last_update` is overwritten with the current instant at the top of the
same loop iteration that performs the check, and no check runs while the loop
is blocked awaiting the next message, so the loop never returns the
"Connection stale" error — not even on a trace with a 100-second silent gap —
whereas the spec requires an error (forcing a reconnect) whenever 10 seconds
pass without an inbound message. -/
theorem c4_stale_check_unreachable :
    (∀ msgs : List (ℚ × WsEvent), streamLoop msgs ≠ Except.error "Connection stale") ∧
    streamLoop [(0, WsEvent.text), (100, WsEvent.text)] = Except.ok () := by
  constructor
  · intro msgs
    induction msgs with
    | nil => simp [streamLoop]
    | cons head tail ih =>
      obtain ⟨now, ev⟩ := head
      have hten : ¬ (10 : ℚ) < now - now := by
        rw [sub_self]
        norm_num
      cases ev <;> simp [streamLoop, hten] <;> exact ih
  · have h0 : ¬ (10 : ℚ) < 0 := by norm_num
    simp [streamLoop, sub_self, h0]

/-- C5 (confirmed): one turn of the `run_websocket` retry loop resets the
attempt counter to 0 on a cycle that completed without error, increments it by
one on a failed cycle, and sleeps `RECONNECT_DELAY * 1.5 ^ attempts` with the
updated counter — 5 s at counter 0 and 11.25 s = 45/4 s at counter 2. -/
theorem c5_backoff :
    (∀ a : ℕ, (reconnectStep a true).1 = 0) ∧
    (∀ a : ℕ, (reconnectStep a false).1 = a + 1) ∧
    (∀ (a : ℕ) (ok : Bool),
        (reconnectStep a ok).2 = 5 * ((3 : ℚ)/2) ^ (reconnectStep a ok).1) ∧
    5 * ((3 : ℚ)/2) ^ (0 : ℕ) = 5 ∧
    5 * ((3 : ℚ)/2) ^ (2 : ℕ) = 45/4 := by
  refine ⟨fun a => rfl, fun a => rfl, fun a ok => rfl, by norm_num, by norm_num⟩

/-- C1 (counterexample): in `c1Book` every price and quantity parses, yet the
first ask "101.0" receives no confidence score at all — the combine loop zips
the per-level round/size lists against the two-element spacing list and the
zip drops the trailing levels.  Moreover the last bid "99.0" (round verdict
true, size verdict true, no spacing verdict of its own) is scored 2/3, not the
(true + true)/2 = 1 that scoring "only over the two heuristics that did
apply" would give: its third combined verdict is the first ask pair's spacing
verdict, and the denominator is still 3. -/
theorem c1_counterexample :
    parseDecimal "101.0" = some 101 ∧ parseDecimal "1" = some 1 ∧
    (confidenceScores c1Book).find? (fun kv => kv.1 == "101.0") = none ∧
    lookupA (confidenceScores c1Book) "99.0" = some (2/3) ∧
    ((2 : ℚ)/3 ≠ 1) := by
  with_unfolding_all decide

/-- C1 (amended): the combine loop of `analyze_market` pairs the three verdict
lists positionally and scores exactly `min (|round|, |size|, |spacing|)`
triples, each with denominator 3 — every assigned confidence lies in
{0, 1/3, 2/3, 1}, and a two-heuristic score (denominator 2) is never
produced; levels beyond the shortest list, in particular trailing levels that
lack spacing verdicts, receive no score. -/
theorem c1_amended_scores (book : OrderBook) :
    (∀ kv ∈ confidenceScores book,
        kv.2 = 0 ∨ kv.2 = 1/3 ∨ kv.2 = 2/3 ∨ kv.2 = 1) ∧
    (combined book).length =
      min (min (analyzeRoundNumbers book).length (analyzeOrderSizes book).length)
        (analyzeOrderPlacement book).length := by
  constructor
  · intro kv hkv
    refine @forall_fold_setA (fun q => q = 0 ∨ q = 1/3 ∨ q = 2/3 ∨ q = 1)
      (combined book) [] ?_ ?_ kv hkv
    · intro kv' hkv'
      cases hkv'
    · intro x hx
      obtain ⟨y, hy, rfl⟩ := List.mem_map.mp hx
      exact scoreOf_three y.1.1.2 y.1.2.2 y.2.2
  · simp [combined, List.length_zip]

/-- C1 (amended, witness): the bid "100.0" of `c1Book` is scored 2/3, a value
in {0, 1/3, 2/3, 1}. -/
theorem c1_amended_scores_witness :
    ("100.0", (2 : ℚ)/3) ∈ confidenceScores c1Book ∧
    ((2 : ℚ)/3 = 0 ∨ (2 : ℚ)/3 = 1/3 ∨ (2 : ℚ)/3 = 2/3 ∨ (2 : ℚ)/3 = 1) :=
  ⟨by with_unfolding_all decide,
   (c1_amended_scores c1Book).1 ("100.0", (2 : ℚ)/3) (by with_unfolding_all decide)⟩

/-- Books reached by a successful `update_orders` lookup: the stored book is
the old one with both sides replaced and the timestamp stamped. -/
theorem update_orders_books (app : App) (j : Json) (now : ℚ) (s : String)
    (book : OrderBook) (hs : (j.get "symbol").bind Json.asStr = some s)
    (hb : lookupA app.order_books s = some book) :
    (update_orders app j now).order_books =
      updateA app.order_books s
        { book with
            bids := List.insertionSort bidOrder
              (extractLevels ((j.get "bids").bind Json.asArr))
            asks := List.insertionSort askOrder
              (extractLevels ((j.get "asks").bind Json.asArr))
            last_update := now } := by
  unfold update_orders
  rw [hs]
  simp only [hb]
  split <;> rfl

/-- C2 (counterexample): the update `c2Json` carries the bid ["abc", "1"];
"abc" does not parse as a number, yet after `update_orders` the stored BTCUSDT
book contains exactly that entry — a level with unparsable price is kept (its
numeric key defaulting to 0), not skipped. -/
theorem c2_counterexample :
    parseDecimal "abc" = none ∧
    ((lookupA (update_orders (initApp 0) c2Json 7).order_books "BTCUSDT").map
        (fun b => b.bids.map (fun e => e.price))) = some ["abc"] := by
  with_unfolding_all decide

/-- C2 (amended): for every update naming a known symbol, `update_orders`
replaces that symbol's bid and ask sequences wholesale with the update's
levels sorted by parsed numeric price (bids descending, asks ascending, an
unparsable price sorting as 0), skips exactly the entries whose price or
quantity field is not a JSON string (string entries are kept even when the
price does not parse as a number), and stamps `last_update` with the current
time.  The sorted sides are permutations of the extracted levels and are
pairwise ordered by the respective comparator. -/
theorem c2_amended_update (app : App) (j : Json) (now : ℚ) (s : String)
    (book : OrderBook) (hs : (j.get "symbol").bind Json.asStr = some s)
    (hb : lookupA app.order_books s = some book) :
    lookupA (update_orders app j now).order_books s =
      some { book with
        bids := List.insertionSort bidOrder
          (extractLevels ((j.get "bids").bind Json.asArr))
        asks := List.insertionSort askOrder
          (extractLevels ((j.get "asks").bind Json.asArr))
        last_update := now } ∧
    (List.insertionSort bidOrder
        (extractLevels ((j.get "bids").bind Json.asArr))).Perm
      (extractLevels ((j.get "bids").bind Json.asArr)) ∧
    (List.insertionSort askOrder
        (extractLevels ((j.get "asks").bind Json.asArr))).Perm
      (extractLevels ((j.get "asks").bind Json.asArr)) ∧
    List.Pairwise bidOrder
      (List.insertionSort bidOrder (extractLevels ((j.get "bids").bind Json.asArr))) ∧
    List.Pairwise askOrder
      (List.insertionSort askOrder (extractLevels ((j.get "asks").bind Json.asArr))) := by
  refine ⟨?_, List.perm_insertionSort _ _, List.perm_insertionSort _ _,
    List.sorted_insertionSort _ _, List.sorted_insertionSort _ _⟩
  rw [update_orders_books app j now s book hs hb]
  exact lookupA_updateA_self _ hb

/-- C2 (amended, witness): applying `c2Json` at time 7 to the freshly
initialized application stores `c2Stored` for BTCUSDT. -/
theorem c2_amended_update_witness :
    lookupA (update_orders (initApp 0) c2Json 7).order_books "BTCUSDT" =
      some c2Stored ∧
    (List.insertionSort bidOrder
        (extractLevels ((c2Json.get "bids").bind Json.asArr))).Perm
      (extractLevels ((c2Json.get "bids").bind Json.asArr)) ∧
    (List.insertionSort askOrder
        (extractLevels ((c2Json.get "asks").bind Json.asArr))).Perm
      (extractLevels ((c2Json.get "asks").bind Json.asArr)) ∧
    List.Pairwise bidOrder
      (List.insertionSort bidOrder (extractLevels ((c2Json.get "bids").bind Json.asArr))) ∧
    List.Pairwise askOrder
      (List.insertionSort askOrder (extractLevels ((c2Json.get "asks").bind Json.asArr))) :=
  c2_amended_update (initApp 0) c2Json 7 "BTCUSDT"
    { bids := [], asks := [], last_update := 0, persistent_orders := [] }
    (by rfl) (by with_unfolding_all decide)

/-- C6 (confirmed): the flush timer is reset exactly when a flush is
attempted.  When at least 5 seconds have elapsed since the last reset and the
window average is available, `last_db_write` becomes `now` — for either value
of `dbFails`, i.e. even when the database insert fails (the failure only
affects the stored records, not the timer); when the average is unavailable
(empty window) or fewer than 5 seconds have elapsed, the timer keeps its old
value. -/
theorem c6_flush_timer (sym : String) (now : ℚ) (ts : ℤ) (ldw : ℚ)
    (avg : Option (ℚ × ℚ)) (db : List MarketAnalysisRecord) (dbFails : Bool) :
    (5 ≤ now - ldw → avg ≠ none →
      (flushStep sym now ts ldw avg db dbFails).1 = now) ∧
    (avg = none → (flushStep sym now ts ldw avg db dbFails).1 = ldw) ∧
    (now - ldw < 5 → (flushStep sym now ts ldw avg db dbFails).1 = ldw) := by
  refine ⟨?_, ?_, ?_⟩
  · intro h5 hne
    unfold flushStep
    rw [if_pos h5]
    cases avg with
    | none => exact absurd rfl hne
    | some p =>
      obtain ⟨a, b⟩ := p
      rfl
  · intro hnone
    subst hnone
    unfold flushStep
    split <;> rfl
  · intro hlt
    unfold flushStep
    rw [if_neg (not_le.mpr hlt)]

/-- C6 (witness): timer reset to 10 with a failing insert; not reset on an
empty average; not reset when only 3 seconds have elapsed. -/
theorem c6_flush_timer_witness :
    (flushStep "BTCUSDT" 10 0 0 (some (2, 1)) [] true).1 = 10 ∧
    (flushStep "BTCUSDT" 10 0 0 none [] false).1 = 0 ∧
    (flushStep "BTCUSDT" 3 0 0 (some (2, 1)) [] false).1 = 0 :=
  ⟨(c6_flush_timer "BTCUSDT" 10 0 0 (some (2, 1)) [] true).1
      (by with_unfolding_all decide) (by decide),
   (c6_flush_timer "BTCUSDT" 10 0 0 none [] false).2.1 rfl,
   (c6_flush_timer "BTCUSDT" 3 0 0 (some (2, 1)) [] false).2.2
      (by with_unfolding_all decide)⟩

/-- C7 (confirmed): a flushed record's `human_ratio` equals
`avg_human / avg_total` whenever `avg_total > 0` and is exactly 0 whenever
`avg_total = 0`; an average produced from any window is never negative, so the
two guarded cases are exhaustive and the division is only taken with a
positive divisor. -/
theorem c7_ratio_guard (buf : List (ℚ × ℕ × ℕ)) (t h : ℚ) (sym : String)
    (ts : ℤ) (havg : calculate_average_buffer buf = some (t, h)) :
    0 ≤ t ∧
    (0 < t → (mkAnalysisRecord sym ts t h).human_ratio = h / t) ∧
    (t = 0 → (mkAnalysisRecord sym ts t h).human_ratio = 0) := by
  have ht : 0 ≤ t := by
    unfold calculate_average_buffer at havg
    split at havg
    · exact absurd havg (by simp)
    · rw [Option.some.injEq, Prod.mk.injEq] at havg
      obtain ⟨h1, _⟩ := havg
      rw [← h1]
      positivity
  refine ⟨ht, ?_, ?_⟩
  · intro hpos
    show (if 0 < t then h / t else 0) = h / t
    rw [if_pos hpos]
  · intro h0
    show (if 0 < t then h / t else 0) = 0
    rw [if_neg (by rw [h0]; exact lt_irrefl 0)]

/-- C7 (witness): the window [(0, 2, 1)] averages to (2, 1) and the record
built from it has ratio 1/2. -/
theorem c7_ratio_guard_witness :
    (mkAnalysisRecord "BTCUSDT" 0 2 1).human_ratio = 1 / 2 :=
  (c7_ratio_guard [(0, 2, 1)] 2 1 "BTCUSDT" 0
      (by with_unfolding_all decide)).2.1 (by decide)

/-- C8 (confirmed): `calculate_average_analysis` returns nothing when the
symbol has no window or its window is empty, and otherwise returns exactly
the arithmetic means of the sampled totals and human counts. -/
theorem c8_average (app : App) (sym : String) :
    (lookupA app.analysis_buffer sym = none →
      calculate_average_analysis app sym = none) ∧
    (∀ buf, lookupA app.analysis_buffer sym = some buf →
      ((buf = [] → calculate_average_analysis app sym = none) ∧
       (buf ≠ [] → calculate_average_analysis app sym =
          some ((((buf.map (fun s => s.2.1)).sum : ℕ) : ℚ) / (buf.length : ℚ),
                (((buf.map (fun s => s.2.2)).sum : ℕ) : ℚ) / (buf.length : ℚ))))) := by
  constructor
  · intro hnone
    unfold calculate_average_analysis
    rw [hnone]
  · intro buf hsome
    constructor
    · intro he
      unfold calculate_average_analysis
      rw [hsome, he]
      rfl
    · intro hne
      unfold calculate_average_analysis
      rw [hsome]
      show calculate_average_buffer buf = _
      unfold calculate_average_buffer
      rw [if_neg (by simpa using hne)]

/-- C8 (witness): the BTCUSDT window of `c8App` holds the single sample
(0, 2, 1), so the average is (2, 1). -/
theorem c8_average_witness :
    calculate_average_analysis c8App "BTCUSDT" = some (2, 1) := by
  have hx := ((c8_average c8App "BTCUSDT").2 [(0, 2, 1)]
    (by with_unfolding_all decide)).2 (by decide)
  rw [hx]
  with_unfolding_all decide

/-- C9 (confirmed): an update whose symbol field is missing or not a JSON
string, or names a symbol without an order book, leaves the entire
application state — order books, message history, analysis buffers, database
and timers — unchanged. -/
theorem c9_unknown_symbol_ignored (app : App) (j : Json) (now : ℚ) :
    ((j.get "symbol").bind Json.asStr = none → update_orders app j now = app) ∧
    (∀ s, (j.get "symbol").bind Json.asStr = some s →
        lookupA app.order_books s = none → update_orders app j now = app) := by
  constructor
  · intro h
    unfold update_orders
    rw [h]
  · intro s hs hb
    unfold update_orders
    rw [hs]
    simp only [hb]

/-- C9 (witness): an update naming DOGEUSDT — absent from the configured
books — leaves the freshly initialized state untouched. -/
theorem c9_unknown_symbol_ignored_witness :
    update_orders (initApp 0) c9Json 5 = initApp 0 :=
  (c9_unknown_symbol_ignored (initApp 0) c9Json 5).2 "DOGEUSDT" (by rfl)
    (by with_unfolding_all decide)

/-- C10 (confirmed): the count of human-labeled levels never exceeds the
total level count; the aggregator step preserves the per-sample invariant
`human ≤ total`; a window of such samples averages to `avg_human ≤
avg_total`; and a record built from such averages has `human_ratio ∈ [0, 1]`
and `bot_orders ≥ 0`. -/
theorem c10_invariants :
    (∀ book : OrderBook, likelyHumanOrders book ≤ totalOrdersOf book) ∧
    (∀ (buf : List (ℚ × ℕ × ℕ)) (now : ℚ) (t h : ℕ),
        (∀ s ∈ buf, s.2.2 ≤ s.2.1) → h ≤ t →
        ∀ s ∈ update_analysis_buffer buf now t h, s.2.2 ≤ s.2.1) ∧
    (∀ (buf : List (ℚ × ℕ × ℕ)) (t h : ℚ),
        (∀ s ∈ buf, s.2.2 ≤ s.2.1) →
        calculate_average_buffer buf = some (t, h) → h ≤ t) ∧
    (∀ (sym : String) (ts : ℤ) (t h : ℚ), 0 ≤ h → h ≤ t →
        0 ≤ (mkAnalysisRecord sym ts t h).human_ratio ∧
        (mkAnalysisRecord sym ts t h).human_ratio ≤ 1 ∧
        0 ≤ (mkAnalysisRecord sym ts t h).bot_orders) := by
  refine ⟨?_, ?_, ?_, ?_⟩
  · intro book
    unfold likelyHumanOrders totalOrdersOf
    have h1 : (confidenceScores book).countP (fun kv => decide ((3 : ℚ)/5 < kv.2))
        ≤ (confidenceScores book).length := List.countP_le_length _
    have h2 : (confidenceScores book).length ≤ (combined book).length := by
      have := length_fold_setA (combined book) []
      simpa [confidenceScores] using this
    have h3 : (combined book).length ≤ (analyzeRoundNumbers book).length := by
      simp only [combined, List.length_map, List.length_zip]
      exact le_trans inf_le_left inf_le_left
    have h4 : (analyzeRoundNumbers book).length ≤ (book.bids ++ book.asks).length := by
      unfold analyzeRoundNumbers
      exact List.length_filterMap_le _ _
    have h5 : (book.bids ++ book.asks).length = book.bids.length + book.asks.length :=
      List.length_append _ _
    omega
  · intro buf now t h hbuf hth s hs
    rcases (mem_update_analysis_buffer.mp hs).1 with h1 | h1
    · exact hbuf s h1
    · rw [h1]
      exact hth
  · intro buf t h hbuf havg
    unfold calculate_average_buffer at havg
    split at havg
    · exact absurd havg (by simp)
    · rw [Option.some.injEq, Prod.mk.injEq] at havg
      obtain ⟨h1, h2⟩ := havg
      rw [← h1, ← h2, div_eq_mul_inv, div_eq_mul_inv]
      apply mul_le_mul_of_nonneg_right
      · exact_mod_cast List.sum_le_sum hbuf
      · positivity
  · intro sym ts t h h0 hle
    have hts : 0 ≤ t := le_trans h0 hle
    refine ⟨?_, ?_, ?_⟩
    · show 0 ≤ (if 0 < t then h / t else 0)
      split
      · exact div_nonneg h0 hts
      · exact le_refl 0
    · show (if 0 < t then h / t else 0) ≤ 1
      split
      · rename_i hpos
        exact (div_le_one hpos).mpr hle
      · exact zero_le_one
    · show (0 : ℤ) ≤ toI64 (t - h)
      unfold toI64
      rw [if_pos (sub_nonneg.mpr hle)]
      unfold ratFloor
      exact Int.fdiv_nonneg (Rat.num_nonneg.mpr (sub_nonneg.mpr hle))
        (Int.natCast_nonneg _)

/-- C10 (witness): one classification cycle recording (total, human) = (2, 1)
at time 0 keeps the invariant through the window, the average and the record. -/
theorem c10_invariants_witness :
    ((0 : ℚ), 2, 1) ∈ update_analysis_buffer [] 0 2 1 ∧
    (((0 : ℚ), (2 : ℕ), (1 : ℕ)).2.2 ≤ ((0 : ℚ), (2 : ℕ), (1 : ℕ)).2.1) ∧
    calculate_average_buffer [(0, 2, 1)] = some (2, 1) ∧
    (1 : ℚ) ≤ 2 ∧
    0 ≤ (mkAnalysisRecord "BTCUSDT" 0 2 1).human_ratio ∧
    (mkAnalysisRecord "BTCUSDT" 0 2 1).human_ratio ≤ 1 ∧
    0 ≤ (mkAnalysisRecord "BTCUSDT" 0 2 1).bot_orders := by
  have hmem : ((0 : ℚ), 2, 1) ∈ update_analysis_buffer [] 0 2 1 := by
    with_unfolding_all decide
  have h2 := c10_invariants.2.1 [] 0 2 1 (by simp) (by decide) ((0 : ℚ), 2, 1) hmem
  have havg : calculate_average_buffer [((0 : ℚ), 2, 1)] = some (2, 1) := by
    with_unfolding_all decide
  have h3 := c10_invariants.2.2.1 [((0 : ℚ), 2, 1)] 2 1 (by decide) havg
  have h4 := c10_invariants.2.2.2 "BTCUSDT" 0 2 1 (by decide) (by decide)
  exact ⟨hmem, h2, havg, h3, h4.1, h4.2.1, h4.2.2⟩

end MP
